import Mathlib

/-!
Shallow embedding of `polygon2kattis.py`, a converter from Codeforces Polygon
full packages to the Kattis problem-tools directory layout.

Modelling conventions:
- The zip package is a list of `(memberName, content)` pairs; `Package.read?`
  models `ZipFile.open`/`read` (first match wins; a missing member is the
  Python `KeyError`).
- The output tree is a list of `(path, entry)` pairs with paths relative to
  the output directory, newest write first.  Directory creation
  (`force_mkdir` / `add_folder`) is a no-op in this model: directories are
  implicit in file paths, and `mkdir(exist_ok=True)` never fails.
- `St` is the mutable state of the `Polygon2Kattis` object plus the output
  filesystem.  `St.writes` is a chronological trace of every file creation,
  `St.logs` records the messages passed to `self.log` (printing is merely
  gated on the verbose flag, so the messages themselves model "logged").
  `checkType` mirrors the attribute `check_type` assigned in `__init__`;
  `checkerType` mirrors the attribute `checker_type`, which is only defined
  once `_process_checker` assigns it — hence an `Option`, with `none`
  meaning "attribute not set" (reading it raises `AttributeError`).
- Python exceptions are the explicit error component of `St × Option PyErr`;
  an erroring step still returns the state it had mutated so far, exactly as
  Python side effects persist past a raised exception.
-/

namespace P2K

/-- Accumulator-style whitespace tokenizer over characters. -/
def splitWsAux : List Char → List Char → List String
  | [], cur => if cur = [] then [] else [String.mk cur.reverse]
  | c :: rest, cur =>
    if c.isWhitespace then
      if cur = [] then splitWsAux rest []
      else String.mk cur.reverse :: splitWsAux rest []
    else splitWsAux rest (c :: cur)

/-- Python `str.split()` with no argument: the maximal non-whitespace runs
(`''.split() == []`, `'  '.split() == []`). -/
def pySplitWs (s : String) : List String :=
  splitWsAux s.data []

/-- Does the second character list start with the first? -/
def leadsWith : List Char → List Char → Bool
  | [], _ => true
  | _ :: _, [] => false
  | a :: as, b :: bs => a == b && leadsWith as bs

/-- Does `hay` contain `pat` as a contiguous run? -/
def containsChars (hay pat : List Char) : Bool :=
  match hay with
  | [] => leadsWith pat []
  | _ :: rest => leadsWith pat hay || containsChars rest pat

/-- Python substring test `sub in s`. -/
def strContains (s sub : String) : Bool :=
  containsChars s.data sub.data

/-- Python `s.startswith(pre)`. -/
def pyStartsWith (s pre : String) : Bool :=
  leadsWith pre.data s.data

/-- Python `s.split(sep)` for a single separator character: at least one
field, empty fields kept. -/
def splitOnChar (sep : Char) : List Char → List (List Char)
  | [] => [[]]
  | c :: rest =>
    let r := splitOnChar sep rest
    if c = sep then [] :: r
    else
      match r with
      | [] => [[c]]
      | h :: t => (c :: h) :: t

/-- Python `pathlib.Path(p).name`: the last `/`-separated component. -/
def pyBasename (s : String) : String :=
  String.mk ((splitOnChar '/' s.data).getLastD [])

/-- Python `pathlib.Path(name).suffix` on a final component: the last
extension including its dot, `""` for no dot or a leading-dot-only name. -/
def pySuffix (nm : String) : String :=
  match splitOnChar '.' nm.data with
  | [] => ""
  | [_] => ""
  | first :: rest =>
    if first = [] ∧ rest.length = 1 then ""
    else "." ++ String.mk (rest.getLastD [])

/-- Python `str.strip()` on characters: drop whitespace at both ends. -/
def pyStripChars (l : List Char) : List Char :=
  ((l.dropWhile Char.isWhitespace).reverse.dropWhile Char.isWhitespace).reverse

/-- Python `str.strip()`. -/
def pyStrip (s : String) : String :=
  String.mk (pyStripChars s.data)

def digitsToNatAux : List Char → Nat → Option Nat
  | [], acc => some acc
  | c :: rest, acc =>
    if c.isDigit then digitsToNatAux rest (acc * 10 + (c.toNat - 48)) else none

/-- Python `int(s)` on the strings the manifest carries: optional surrounding
whitespace around an optionally signed decimal numeral (`none` models the
`ValueError` raised otherwise). -/
def pyInt? (s : String) : Option Int :=
  match pyStripChars s.data with
  | [] => none
  | '-' :: rest =>
    match rest with
    | [] => none
    | _ => (digitsToNatAux rest 0).map (fun n => -(n : Int))
  | '+' :: rest =>
    match rest with
    | [] => none
    | _ => (digitsToNatAux rest 0).map (fun n => (n : Int))
  | l => (digitsToNatAux l 0).map (fun n => (n : Int))

/-- Left-pad with zeros to width `w`, for the `%0<w>d` printf conversion. -/
def padZeros (w : Nat) (s : String) : String :=
  if s.length ≥ w then s else String.mk (List.replicate (w - s.length) '0') ++ s

/-- Parse the remainder of a `%0<digits>d` / `%d` conversion: accumulated
width digits, then `d`; anything else is not an integer conversion. -/
def parseIntSpec : List Char → Nat → Option (Nat × List Char)
  | [], _ => none
  | c :: rest, acc =>
    if c = 'd' then some (acc, rest)
    else if c.isDigit then parseIntSpec rest (acc * 10 + (c.toNat - 48))
    else none

/-- Python `pattern % n` for the patterns Polygon manifests use: substitute
the first `%d`-style integer conversion by `n` (zero-padded when a width is
given) and keep everything else verbatim. -/
def pyFmtDAux : List Char → Nat → List Char
  | [], _ => []
  | c :: rest, n =>
    if c = '%' then
      match parseIntSpec rest 0 with
      | some (w, tail) => (padZeros w (toString n)).data ++ tail
      | none => c :: pyFmtDAux rest n
    else c :: pyFmtDAux rest n

def pyFmtD (pat : String) (n : Nat) : String :=
  String.mk (pyFmtDAux pat.data n)

/-- Python `str(x)` for an `Optional[str]`: `None` prints as `"None"`. -/
def pyStr : Option String → String
  | none => "None"
  | some s => s

/-- Join printed lines: each `print(line, file=f)` appends `line ++ "\n"`. -/
def unlines (ls : List String) : String :=
  String.join (ls.map (fun l => l ++ "\n"))

/-- A path in the output tree, relative to the output directory. -/
abbrev KPath := List String

def joinPath (p : KPath) : String :=
  String.intercalate "/" p

/-- An output-tree entry: a regular file or a symbolic link. -/
inductive FsEntry where
  | file (content : String)
  | symlink (target : String)
deriving DecidableEq

/-- The output tree: newest write first. -/
abbrev FS := List (KPath × FsEntry)

def FS.read? : FS → KPath → Option FsEntry
  | [], _ => none
  | (q, e) :: fs, p => if q = p then some e else FS.read? fs p

/-- Models `Path.read_text` / `Path.is_file`: the content of a regular file. -/
def FS.readFile? (fs : FS) (p : KPath) : Option String :=
  match fs.read? p with
  | some (.file c) => some c
  | _ => none

def FS.write (fs : FS) (p : KPath) (e : FsEntry) : FS :=
  (p, e) :: fs

/-- Models `Path.unlink(missing_ok=True)`. -/
def FS.erase : FS → KPath → FS
  | [], _ => []
  | (q, e) :: fs, p => if q = p then FS.erase fs p else (q, e) :: FS.erase fs p

/-- The source package: zip member names with their contents. -/
abbrev Package := List (String × String)

def Package.read? : Package → String → Option String
  | [], _ => none
  | (nm, c) :: pkg, m => if nm = m then some c else Package.read? pkg m

/-- Models `ZipFile.namelist()`: a stable, order-preserving member enumeration. -/
def Package.namelist (pkg : Package) : List String :=
  pkg.map (fun e => e.1)

/-- Python exceptions raised by the translated code paths. -/
inductive PyErr where
  | keyError (member : String)
  | listIndexError (idx : Nat)
  | splitIndexError
  | valueError (s : String)
  | attributeError (attr : String)
deriving DecidableEq

/-- The converter's state: output tree, write trace, log messages, the
`generator_names` set, and the two checker-type attributes (see header). -/
structure St where
  fs : FS := []
  writes : List (KPath × FsEntry) := []
  logs : List String := []
  generatorNames : List String := []
  checkType : String := ""
  checkerType : Option String := none
deriving DecidableEq

def St.log (st : St) (m : String) : St :=
  { st with logs := st.logs ++ [m] }

def St.writeFile (st : St) (p : KPath) (c : String) : St :=
  { st with fs := st.fs.write p (.file c), writes := st.writes ++ [(p, .file c)] }

def St.putSymlink (st : St) (p : KPath) (target : String) : St :=
  { st with fs := st.fs.write p (.symlink target), writes := st.writes ++ [(p, .symlink target)] }

def St.eraseFile (st : St) (p : KPath) : St :=
  { st with fs := st.fs.erase p }

/-- The state right after `Polygon2Kattis.__init__` on a fresh output tree:
`check_type` is `''` and `checker_type` is not an attribute yet. -/
def initSt : St := {}

/-- Translation of `extract_package_member_to`: log, open the member (`KeyError` if absent),
copy it to `dest`. -/
def extractTo (pkg : Package) (member : String) (dest : KPath) (st : St) : St × Option PyErr :=
  let st := st.log ("extracting " ++ member ++ " " ++ joinPath dest)
  match pkg.read? member with
  | none => (st, some (.keyError member))
  | some c => (st.writeFile dest c, none)

/-- Sequencing with exception propagation: a raised exception skips the
continuation but keeps the side effects performed so far. -/
def thenDo (r : St × Option PyErr) (f : St → St × Option PyErr) : St × Option PyErr :=
  match r with
  | (st, none) => f st
  | e => e

/-- The `NamedChoice` dataclass from the source. -/
structure NamedChoice where
  name : String
  short_name : String
deriving DecidableEq

def ENGLISH_LANG : NamedChoice := ⟨"english", "en"⟩

def VIETNAMESE_LANG : NamedChoice := ⟨"vietnamese", "vn"⟩

def SUPPORTED_LANGUAGES : List NamedChoice := [ENGLISH_LANG, VIETNAMESE_LANG]

def PART_MAP : List (String × NamedChoice) :=
  [("statement", ⟨"statement", "statement"⟩),
   ("tests", ⟨"tests", "tests"⟩),
   ("solutions", ⟨"solutions", "solutions"⟩),
   ("checker_validator_interactor", ⟨"checker_validator_interactor", "checker_validator_interactor"⟩),
   ("problem_yaml", ⟨"problem_yaml", "problem_yaml"⟩)]

def PARTS : List NamedChoice := PART_MAP.map (fun e => e.2)

/-- The parsed command line.  Defaults mirror `build_argparser`:
`--write-problem-yaml` and `--test-generation-info` are `store_true` flags
defaulting to `False`, `--part` defaults to all of `PARTS`, `--license` to
`cc by-sa`, `--lang` to English, `--symlink-testlib` to `''`. -/
structure Args where
  lang : NamedChoice := ENGLISH_LANG
  verbose : Bool := false
  writeProblemYamlFlag : Bool := false
  license : String := "cc by-sa"
  part : List NamedChoice := PARTS
  testGenerationInfo : Bool := false
  symlinkTestlib : String := ""
deriving DecidableEq

def defaultArgs : Args := {}

/-- A `<test>` element: its `sample` and `cmd` attributes. -/
structure Test where
  sample : Option String := none
  cmd : Option String := none
deriving DecidableEq

/-- A `<testset>` element.  The three child elements are `Option (Option
String)`: outer `none` when the element is missing, inner the element's
`.text` (itself `None`-able). -/
structure Testset where
  name : Option String := none
  inputPathPattern : Option (Option String) := none
  answerPathPattern : Option (Option String) := none
  testCount : Option (Option String) := none
  tests : List Test := []
deriving DecidableEq

/-- A `<source>` element: its `path` and `type` attributes. -/
structure SourceRef where
  path : Option String := none
  type : Option String := none
deriving DecidableEq

/-- A `<solution>` element: its `<source>` child and `tag` attribute. -/
structure Solution where
  source : Option SourceRef := none
  tag : Option String := none
deriving DecidableEq

/-- A `<checker>` element: its `name` attribute and `<source>` child. -/
structure Checker where
  name : Option String := none
  source : Option SourceRef := none
deriving DecidableEq

/-- A `<validator>` element: its `<source>` child. -/
structure Validator where
  source : Option SourceRef := none
deriving DecidableEq

/-- The parsed `problem.xml`: the entity collections the converter queries,
in document order. -/
structure Problem where
  url : Option String := none
  testsets : List Testset := []
  solutions : List Solution := []
  checkers : List Checker := []
  validators : List Validator := []
  resourceFiles : List (Option String) := []
  executableSources : List (Option String) := []
deriving DecidableEq

/-! ### `process_statement` -/

/-- The six statement fragments in the fixed order the source folds them,
each with its rendering (what the corresponding `print` calls emit). -/
def FRAGMENT_RENDERS : List (String × (String → String)) :=
  [("name.tex", fun t => "\\problemname\x7b" ++ pyStrip (pyStrip t) ++ "\x7d\n"),
   ("legend.tex", fun t => t ++ "\n"),
   ("input.tex", fun t => "\\section*\x7bInput\x7d\n" ++ t ++ "\n"),
   ("output.tex", fun t => "\\section*\x7bOutput\x7d\n" ++ t ++ "\n"),
   ("notes.tex", fun t => "\\section*\x7bSample Explanation\x7d\n" ++ t ++ "\n"),
   ("scoring.tex", fun t => "\\section*\x7bScoring\x7d\n" ++ t ++ "\n")]

/-- The per-member extraction loop of `process_statement`: members whose
basename has an empty suffix (directory markers) are skipped, the rest are
copied into `problem_statement/`. -/
def copyLoop (pkg : Package) : List String → St → St × Option PyErr
  | [], st => (st, none)
  | filename :: rest, st =>
    let base := pyBasename filename
    if pySuffix base = "" then copyLoop pkg rest st
    else thenDo (extractTo pkg filename ["problem_statement", base] st) (copyLoop pkg rest)

/-- The composite-document build: for each fragment in order, if its file
exists, append its rendering to the output and delete the file. -/
def buildComposite (dir : KPath) : List (String × (String → String)) → St → String → St × String
  | [], st, out => (st, out)
  | fr :: rest, st, out =>
    match st.fs.readFile? (dir ++ [fr.1]) with
    | some t => buildComposite dir rest (st.eraseFile (dir ++ [fr.1])) (out ++ fr.2 t)
    | none => buildComposite dir rest st out

/-- Translation of `process_statement`: select members under `statement-sections/<lang>`,
no-op if none, else copy them and write `problem.<shortCode>.tex`. -/
def processStatement (pkg : Package) (args : Args) (st : St) : St × Option PyErr :=
  let st := st.log "Processing statement"
  let member_name := "statement-sections/" ++ args.lang.name
  let filenameList := pkg.namelist.filter (fun n => pyStartsWith n member_name)
  if filenameList.length = 0 then (st, none)
  else
    thenDo (copyLoop pkg filenameList st) (fun st =>
      let bc := buildComposite ["problem_statement"] FRAGMENT_RENDERS st ""
      (bc.1.writeFile ["problem_statement", "problem." ++ args.lang.short_name ++ ".tex"] bc.2, none))

/-! ### `process_tests` / `process_testset` -/

/-- The dedented disclaimer header written into `_gen-test-script`. -/
def DISCLAIMER : String :=
  "\n# Actual tests were generated on Polygon.\n# This file is generated and not meant to be ran.\n# This file is here to demonstrate how the generators were used to generate the test.\n"

/-- The per-ordinal loop of `process_testset`, threading the accumulated
`generation_scripts`.  For each `test_id`: instantiate both patterns, fetch
`test_tags[test_id - 1]` (`IndexError` when past the authored list), place
`<id>.in` / `<id>.ans` in the sample or this testset's secret directory, and
record a present generation command (`cmd.split()[0]` raises `IndexError`
when the command is blank). -/
def testLoop (pkg : Package) (inPat ansPat : String) (tests : List Test)
    (sampleDir secretDir : KPath) : List Nat → St → List String → St × List String × Option PyErr
  | [], st, scripts => (st, scripts, none)
  | testId :: rest, st, scripts =>
    let inputFilename := pyFmtD inPat testId
    let answerFilename := pyFmtD ansPat testId
    match tests[testId - 1]? with
    | none => (st, scripts, some (.listIndexError (testId - 1)))
    | some t =>
      let destPath := if t.sample = some "true" then sampleDir else secretDir
      let inName := toString testId ++ ".in"
      let ansName := toString testId ++ ".ans"
      match extractTo pkg inputFilename (destPath ++ [inName]) st with
      | (st, some e) => (st, scripts, some e)
      | (st, none) =>
        match extractTo pkg answerFilename (destPath ++ [ansName]) st with
        | (st, some e) => (st, scripts, some e)
        | (st, none) =>
          match t.cmd with
          | none => testLoop pkg inPat ansPat tests sampleDir secretDir rest st scripts
          | some cmd =>
            let scripts := scripts ++ [cmd ++ " > " ++ inName]
            match (pySplitWs cmd).head? with
            | none => (st, scripts, some .splitIndexError)
            | some tok =>
              let st := { st with generatorNames :=
                if st.generatorNames.contains tok then st.generatorNames
                else st.generatorNames ++ [tok] }
              testLoop pkg inPat ansPat tests sampleDir secretDir rest st scripts

/-- Translation of `process_testset`: skip (with a log) when any of the three required
child elements is missing; otherwise run the test loop over ordinals
`1..testcount` and, in test-generation-info mode, write the
`_gen-test-script` marker. -/
def processTestset (pkg : Package) (args : Args) (ts : Testset) (st : St) : St × Option PyErr :=
  let testsetName := ts.name.getD ""
  let st := st.log ("Processing testset " ++ testsetName)
  let curSampleDataPath : KPath := ["data", "sample"]
  let curSecretDataPath : KPath := ["data", "secret", testsetName]
  match ts.inputPathPattern, ts.answerPathPattern, ts.testCount with
  | some iptText, some aptText, some tcText =>
    let inputPathPat := iptText.getD ""
    let answerPathPat := aptText.getD ""
    match pyInt? (tcText.getD "0") with
    | none => (st, some (.valueError (tcText.getD "0")))
    | some testcount =>
      match testLoop pkg inputPathPat answerPathPat ts.tests curSampleDataPath curSecretDataPath
          (List.range' 1 testcount.toNat) st [] with
      | (st, scripts, none) =>
        if args.testGenerationInfo then
          let markerPath := curSecretDataPath ++ ["_gen-test-script"]
          let st := st.writeFile markerPath (DISCLAIMER ++ "\n" ++ String.intercalate "\n" scripts)
          (st.log ("Write f" ++ joinPath markerPath), none)
        else (st, none)
      | (st, _, some e) => (st, some e)
  | _, _, _ => (st.log ("Skip processing testset " ++ testsetName ++ ". Tags not found."), none)

def testsetsLoop (pkg : Package) (args : Args) : List Testset → St → St × Option PyErr
  | [], st => (st, none)
  | ts :: rest, st => thenDo (processTestset pkg args ts st) (testsetsLoop pkg args rest)

def FILES_TO_EXCLUDE : List String :=
  ["files/olymp.sty", "files/problem.tex", "files/statements.ftl"]

/-- The resource export of `process_tests` (test-generation-info mode). -/
def resourcesLoop (pkg : Package) : List (Option String) → St → St × Option PyErr
  | [], st => (st, none)
  | r :: rest, st =>
    let filePath := r.getD ""
    if FILES_TO_EXCLUDE.contains filePath then resourcesLoop pkg rest st
    else thenDo (extractTo pkg filePath ["data", "secret", pyBasename filePath] st) (resourcesLoop pkg rest)

/-- The generator-executable export of `process_tests`
(test-generation-info mode): export sources whose path contains a recorded
generator name. -/
def executablesLoop (pkg : Package) : List (Option String) → St → St × Option PyErr
  | [], st => (st, none)
  | e :: rest, st =>
    let filePath := e.getD ""
    if st.generatorNames.any (fun g => strContains filePath g) then
      thenDo (extractTo pkg filePath ["data", "secret", pyBasename filePath] st) (executablesLoop pkg rest)
    else executablesLoop pkg rest st

/-- Translation of `process_tests`: all testsets in order, then the optional exports. -/
def processTests (pkg : Package) (prob : Problem) (args : Args) (st : St) : St × Option PyErr :=
  let st := st.log "Processing tests"
  thenDo (testsetsLoop pkg args prob.testsets st) (fun st =>
    if args.testGenerationInfo then
      thenDo (resourcesLoop pkg prob.resourceFiles st) (executablesLoop pkg prob.executableSources)
    else (st, none))

/-! ### `process_solutions` -/

/-- The body of the `process_solutions` loop for one solution: silently
skip a solution without a `<source>` child; dispatch a recognized tag to
its bucket directory; log and skip any other tag. -/
def solStep (pkg : Package) (s : Solution) (st : St) : St × Option PyErr :=
  match s.source with
  | none => (st, none)
  | some src =>
    let path := src.path.getD ""
    if s.tag = some "accepted" ∨ s.tag = some "main" then
      extractTo pkg path ["submissions", "accepted", pyBasename path] st
    else if s.tag = some "time-limit-exceeded" then
      extractTo pkg path ["submissions", "time_limit_exceeded", pyBasename path] st
    else if s.tag = some "wrong-answer" then
      extractTo pkg path ["submissions", "wrong_answer", pyBasename path] st
    else if s.tag = some "memory-limit-exceeded" then
      extractTo pkg path ["submissions", "run_time_error", pyBasename path] st
    else
      (st.log ("Skip solution " ++ path ++ " of tag " ++ pyStr s.tag), none)

def solLoop (pkg : Package) : List Solution → St → St × Option PyErr
  | [], st => (st, none)
  | s :: rest, st => thenDo (solStep pkg s st) (solLoop pkg rest)

def processSolutions (pkg : Package) (prob : Problem) (st : St) : St × Option PyErr :=
  solLoop pkg prob.solutions (st.log "Processing solutions")

/-! ### checker / validator / `problem.yaml` -/

/-- Translation of `_put_testlib_to`: copy the bundled `testlib.h` (content
`testlibContent`), or replace `testlib.h` by a relative symlink to the
configured target (`Path('.').relative_to(dir, walk_up=True)` prepends one
`..` per component of `dir`). -/
def putTestlibTo (symlinkTestlib testlibContent : String) (dir : KPath) (st : St) : St :=
  if symlinkTestlib = "" then
    ((st.log ("Copying testlib.h to " ++ joinPath dir)).writeFile (dir ++ ["testlib.h"]) testlibContent)
  else
    let target := String.intercalate "/" (List.replicate dir.length ".." ++ [symlinkTestlib])
    let st := st.eraseFile (dir ++ ["testlib.h"])
    ((st.putSymlink (dir ++ ["testlib.h"]) target).log
      ("Symlinked testlib.h to " ++ joinPath (dir ++ ["testlib.h"]) ++ " -> " ++ target))

/-- Translation of `_process_checker`: no-op without a checker element; a `name` attribute
records a standard checker; otherwise record `custom` and, if a `<source>`
child exists, copy it (plus `testlib.h` for a `cpp`-typed source). -/
def processChecker (args : Args) (testlibContent : String) (pkg : Package) (prob : Problem)
    (st : St) : St × Option PyErr :=
  match prob.checkers.head? with
  | none => (st, none)
  | some ck =>
    match ck.name with
    | some nm => ({ st with checkerType := some nm }, none)
    | none =>
      let st := { st with checkerType := some "custom" }
      match ck.source with
      | none => (st, none)
      | some src =>
        let sourcePath := src.path.getD ""
        match extractTo pkg sourcePath ["output_validators", "checker", pyBasename sourcePath] st with
        | (st, some e) => (st, some e)
        | (st, none) =>
          if strContains (src.type.getD "") "cpp" then
            (putTestlibTo args.symlinkTestlib testlibContent ["output_validators", "checker"] st, none)
          else (st, none)

/-- Translation of `_process_validator`. -/
def processValidator (args : Args) (testlibContent : String) (pkg : Package) (prob : Problem)
    (st : St) : St × Option PyErr :=
  match prob.validators.head? with
  | none => (st, none)
  | some v =>
    match v.source with
    | none => (st, none)
    | some src =>
      let sourcePath := src.path.getD ""
      match extractTo pkg sourcePath ["input_validators", "extracted_validator", pyBasename sourcePath] st with
      | (st, some e) => (st, some e)
      | (st, none) =>
        if strContains (src.type.getD "") "cpp" then
          (putTestlibTo args.symlinkTestlib testlibContent ["input_validators", "extracted_validator"] st, none)
        else (st, none)

def processCheckerValidatorInteractor (args : Args) (testlibContent : String) (pkg : Package)
    (prob : Problem) (st : St) : St × Option PyErr :=
  thenDo (processChecker args testlibContent pkg prob st)
    (processValidator args testlibContent pkg prob)

/-- Translation of `write_problem_yaml`: emit source/license/limits lines, then the
validation lines keyed off `self.checker_type`.  Reading `checker_type`
before `_process_checker` ever assigned it raises `AttributeError`; the
four already-printed lines are flushed when the `with open` block unwinds,
so the partial file write is kept alongside the error. -/
def writeProblemYaml (prob : Problem) (license : String) (st : St) : St × Option PyErr :=
  let st := st.log "writing problem.yaml"
  let baseLines := ["source: " ++ pyStr prob.url, "license: " ++ license,
                    "limits:", "  time_multiplier: 2"]
  match st.checkerType with
  | none => (st.writeFile ["problem.yaml"] (unlines baseLines), some (.attributeError "checker_type"))
  | some ct =>
    let lines := baseLines ++
      (if strContains ct "custom" then ["validation: " ++ ct]
       else if strContains ct "std::" then
         (if ct = "std::rcmp4.cpp" then ["validation:", "  validator_flags: float_tolerance 1e-4"] else []) ++
         (if ct = "std::rcmp6.cpp" then ["validation:", "  validator_flags: float_tolerance 1e-6"] else []) ++
         (if ct = "std::rcmp9.cpp" then ["validation:", "  validator_flags: float_tolerance 1e-9"] else [])
       else [])
    (st.writeFile ["problem.yaml"] (unlines lines), none)

/-! ### `main` -/

/-- The `has_part` helper from `main`: is the `PART_MAP` entry for `key` in
the selected part set?  (`main` would raise on a `None` lookup; the five
keys used are all present in `PART_MAP`.) -/
def hasPart (partSet : List String) (key : String) : Bool :=
  match (PART_MAP.find? (fun e => e.1 == key)).map (fun e => e.2) with
  | some c => partSet.contains c.short_name
  | none => false

/-- The phase dispatch of `main`: build the selected part set and invoke
each `process_*` method under its `has_part` guard, in source order.  Note
that `args.write_problem_yaml` is never consulted anywhere in `main`. -/
def mainRun (args : Args) (testlibContent : String) (pkg : Package) (prob : Problem)
    (st : St) : St × Option PyErr :=
  let partSet := args.part.map (fun c => c.short_name)
  let hasPart := hasPart partSet
  let r := if hasPart "statement" then processStatement pkg args st else (st, none)
  let r := thenDo r (fun st => if hasPart "tests" then processTests pkg prob args st else (st, none))
  let r := thenDo r (fun st => if hasPart "solutions" then processSolutions pkg prob st else (st, none))
  let r := thenDo r (fun st =>
    if hasPart "checker_validator_interactor" then
      processCheckerValidatorInteractor args testlibContent pkg prob st
    else (st, none))
  thenDo r (fun st =>
    if hasPart "problem_yaml" then writeProblemYaml prob args.license st else (st, none))

/-! ### Filesystem and state lemmas -/

theorem FS.read?_write_self (fs : FS) (p : KPath) (e : FsEntry) :
    (fs.write p e).read? p = some e := by
  simp [FS.write, FS.read?]

theorem FS.read?_write_ne (fs : FS) {p q : KPath} (e : FsEntry) (h : q ≠ p) :
    (fs.write p e).read? q = fs.read? q := by
  simp only [FS.write, FS.read?]
  rw [if_neg (fun hh => h hh.symm)]

theorem FS.read?_erase_self (fs : FS) (p : KPath) : (fs.erase p).read? p = none := by
  induction fs with
  | nil => rfl
  | cons a fs ih =>
    obtain ⟨q, e⟩ := a
    by_cases h : q = p
    · simpa [FS.erase, h] using ih
    · simpa [FS.erase, FS.read?, h] using ih

theorem FS.read?_erase_ne (fs : FS) {p q : KPath} (h : q ≠ p) :
    (fs.erase p).read? q = fs.read? q := by
  induction fs with
  | nil => rfl
  | cons a fs ih =>
    obtain ⟨r, e⟩ := a
    simp only [FS.erase]
    by_cases hr : r = p
    · rw [if_pos hr, ih]
      simp only [FS.read?]
      rw [if_neg (fun hh => h (hr ▸ hh).symm)]
    · rw [if_neg hr]
      simp only [FS.read?]
      by_cases hq : r = q
      · rw [if_pos hq, if_pos hq]
      · rw [if_neg hq, if_neg hq, ih]

theorem FS.readFile?_write_self (fs : FS) (p : KPath) (c : String) :
    (fs.write p (.file c)).readFile? p = some c := by
  simp [FS.readFile?, FS.read?_write_self]

theorem FS.readFile?_write_ne (fs : FS) {p q : KPath} (e : FsEntry) (h : q ≠ p) :
    (fs.write p e).readFile? q = fs.readFile? q := by
  simp [FS.readFile?, FS.read?_write_ne fs e h]

theorem FS.readFile?_erase_self (fs : FS) (p : KPath) : (fs.erase p).readFile? p = none := by
  simp [FS.readFile?, FS.read?_erase_self]

theorem FS.readFile?_erase_ne (fs : FS) {p q : KPath} (h : q ≠ p) :
    (fs.erase p).readFile? q = fs.readFile? q := by
  simp [FS.readFile?, FS.read?_erase_ne fs h]

@[simp] theorem St.log_fs (st : St) (m : String) : (st.log m).fs = st.fs := rfl

@[simp] theorem St.log_writes (st : St) (m : String) : (st.log m).writes = st.writes := rfl

@[simp] theorem St.log_logs (st : St) (m : String) : (st.log m).logs = st.logs ++ [m] := rfl

@[simp] theorem St.writeFile_fs (st : St) (p : KPath) (c : String) :
    (st.writeFile p c).fs = st.fs.write p (.file c) := rfl

@[simp] theorem St.writeFile_writes (st : St) (p : KPath) (c : String) :
    (st.writeFile p c).writes = st.writes ++ [(p, .file c)] := rfl

@[simp] theorem St.writeFile_logs (st : St) (p : KPath) (c : String) :
    (st.writeFile p c).logs = st.logs := rfl

@[simp] theorem St.eraseFile_fs (st : St) (p : KPath) : (st.eraseFile p).fs = st.fs.erase p := rfl

@[simp] theorem St.eraseFile_writes (st : St) (p : KPath) : (st.eraseFile p).writes = st.writes := rfl

theorem Package.read?_isSome_of_mem_namelist {pkg : Package} {n : String}
    (h : n ∈ pkg.namelist) : (pkg.read? n).isSome := by
  induction pkg with
  | nil => simp [Package.namelist] at h
  | cons a pkg ih =>
    obtain ⟨nm, c⟩ := a
    by_cases hn : nm = n
    · simp [Package.read?, hn]
    · simp [Package.namelist, hn] at h
      rcases h with h | h
      · exact absurd h.symm hn
      · simpa [Package.read?, hn] using ih (by simpa [Package.namelist] using h)

/-! ### Claim C9 -/

/-- Claim C9: metadata emission maps the classified checker type as
follows — a type containing `custom` yields a bare validation line naming
it; `std::rcmp4.cpp` yields a validator-flags line with float tolerance
`1e-4`, `std::rcmp6.cpp` yields `1e-6`, `std::rcmp9.cpp` yields `1e-9`;
any other checker name yields no extra validation line beyond the fixed
source/license/limits lines. -/
theorem c9_checker_validation_mapping (prob : Problem) (license : String) (st : St) (ct : String)
    (h : st.checkerType = some ct) :
    (writeProblemYaml prob license st).2 = none ∧
    (strContains ct "custom" = true →
      (writeProblemYaml prob license st).1.fs.readFile? ["problem.yaml"] =
        some (unlines ["source: " ++ pyStr prob.url, "license: " ++ license, "limits:",
          "  time_multiplier: 2", "validation: " ++ ct])) ∧
    (ct = "std::rcmp4.cpp" →
      (writeProblemYaml prob license st).1.fs.readFile? ["problem.yaml"] =
        some (unlines ["source: " ++ pyStr prob.url, "license: " ++ license, "limits:",
          "  time_multiplier: 2", "validation:", "  validator_flags: float_tolerance 1e-4"])) ∧
    (ct = "std::rcmp6.cpp" →
      (writeProblemYaml prob license st).1.fs.readFile? ["problem.yaml"] =
        some (unlines ["source: " ++ pyStr prob.url, "license: " ++ license, "limits:",
          "  time_multiplier: 2", "validation:", "  validator_flags: float_tolerance 1e-6"])) ∧
    (ct = "std::rcmp9.cpp" →
      (writeProblemYaml prob license st).1.fs.readFile? ["problem.yaml"] =
        some (unlines ["source: " ++ pyStr prob.url, "license: " ++ license, "limits:",
          "  time_multiplier: 2", "validation:", "  validator_flags: float_tolerance 1e-9"])) ∧
    (strContains ct "custom" = false → ct ≠ "std::rcmp4.cpp" → ct ≠ "std::rcmp6.cpp" →
      ct ≠ "std::rcmp9.cpp" →
      (writeProblemYaml prob license st).1.fs.readFile? ["problem.yaml"] =
        some (unlines ["source: " ++ pyStr prob.url, "license: " ++ license, "limits:",
          "  time_multiplier: 2"])) := by
  have hct : (St.log st "writing problem.yaml").checkerType = some ct := h
  refine ⟨?_, ?_, ?_, ?_, ?_, ?_⟩
  · simp only [writeProblemYaml, hct]
  · intro hc
    simp [writeProblemYaml, hct, hc, FS.readFile?_write_self]
  · intro h4; subst h4
    simp [writeProblemYaml, hct, show strContains "std::rcmp4.cpp" "custom" = false by decide,
      show strContains "std::rcmp4.cpp" "std::" = true by decide, FS.readFile?_write_self]
  · intro h6; subst h6
    simp [writeProblemYaml, hct, show strContains "std::rcmp6.cpp" "custom" = false by decide,
      show strContains "std::rcmp6.cpp" "std::" = true by decide, FS.readFile?_write_self]
  · intro h9; subst h9
    simp [writeProblemYaml, hct, show strContains "std::rcmp9.cpp" "custom" = false by decide,
      show strContains "std::rcmp9.cpp" "std::" = true by decide, FS.readFile?_write_self]
  · intro hc h4 h6 h9
    cases hstd : strContains ct "std::" <;>
      simp [writeProblemYaml, hct, hc, hstd, h4, h6, h9, FS.readFile?_write_self]

/-- Witness for C9 at the checker name `std::rcmp4.cpp`. -/
theorem c9_checker_validation_mapping_witness :
    (writeProblemYaml {} "cc by-sa" { initSt with checkerType := some "std::rcmp4.cpp" }).1.fs.readFile?
        ["problem.yaml"] =
      some "source: None\nlicense: cc by-sa\nlimits:\n  time_multiplier: 2\nvalidation:\n  validator_flags: float_tolerance 1e-4\n" := by
  have h := (c9_checker_validation_mapping {} "cc by-sa"
    { initSt with checkerType := some "std::rcmp4.cpp" } "std::rcmp4.cpp" rfl).2.2.1 rfl
  rw [h]; decide

/-! ### Claim C2 -/

/-- Claim C2 is a code bug.  With no checker element in the manifest,
`_process_checker` is indeed a silent no-op (the state is returned
untouched), but the subsequent `write_problem_yaml` does NOT complete: it
raises `AttributeError` reading `self.checker_type`, because `__init__`
initialises only the misspelled attribute `check_type` and
`_process_checker` returned before ever assigning `checker_type`.  Only the
four base lines reach the file before the exception unwinds. -/
theorem c2_no_checker_metadata_write_raises :
    processChecker defaultArgs "TESTLIB" [] {} initSt = (initSt, none) ∧
    (writeProblemYaml {} "cc by-sa" initSt).2 = some (.attributeError "checker_type") ∧
    (writeProblemYaml {} "cc by-sa" initSt).1.fs.readFile? ["problem.yaml"] =
      some "source: None\nlicense: cc by-sa\nlimits:\n  time_multiplier: 2\n" :=
  ⟨rfl, rfl, by decide⟩

/-! ### Claim C3 -/

/-- Claim C3 is a code bug.  Under the default configuration (no
`--write-problem-yaml`, `--part` defaulted) `main` still runs
`write_problem_yaml`, because `problem_yaml` is a member of the default
part list and `args.write_problem_yaml` is parsed but never consulted —
contradicting the flag's own help text ("Default is off, to not overwrite
the existing problem.yaml").  A pre-existing `problem.yaml` is replaced by
the freshly generated one. -/
theorem c3_default_run_overwrites_problem_yaml :
    (mainRun defaultArgs "T" [] { checkers := [{ name := some "std::wcmp.cpp" }] }
        { initSt with fs := [(["problem.yaml"], .file "old hand-edited")] }).2 = none ∧
    (mainRun defaultArgs "T" [] { checkers := [{ name := some "std::wcmp.cpp" }] }
        { initSt with fs := [(["problem.yaml"], .file "old hand-edited")] }).1.fs.readFile?
        ["problem.yaml"] =
      some "source: None\nlicense: cc by-sa\nlimits:\n  time_multiplier: 2\n" ∧
    defaultArgs.writeProblemYamlFlag = false :=
  ⟨by decide, by decide, rfl⟩

/-! ### Claim C8 -/

/-- The tag-to-bucket mapping stated by the claim. -/
def tagBucket (tag : Option String) : Option String :=
  if tag = some "accepted" ∨ tag = some "main" then some "accepted"
  else if tag = some "time-limit-exceeded" then some "time_limit_exceeded"
  else if tag = some "wrong-answer" then some "wrong_answer"
  else if tag = some "memory-limit-exceeded" then some "run_time_error"
  else none

/-- Claim C8 counterexample: a solution carrying a recognizable tag but no
`<source>` child is skipped *silently* — `solStep` returns the state
completely unchanged, its log (empty here) included — whereas the claim
requires every solution without a source path to be "skipped and logged". -/
theorem c8_missing_source_skipped_without_log :
    solStep [] { source := none, tag := some "accepted" } initSt = (initSt, none) ∧
    initSt.logs = [] :=
  ⟨rfl, rfl⟩

/-- Claim C8 (amended): solution classification maps `accepted`/`main` to
the `accepted` bucket, `time-limit-exceeded` to `time_limit_exceeded`,
`wrong-answer` to `wrong_answer`, `memory-limit-exceeded` to
`run_time_error`; every solution with a recognized tag and a present source
is copied into exactly that one bucket directory; a solution with an
unrecognized tag is skipped and logged; a solution without a `<source>`
child is skipped silently, with no log entry. -/
theorem c8_solution_classification (pkg : Package) (s : Solution) (st : St) :
    (s.source = none → solStep pkg s st = (st, none)) ∧
    (∀ src, s.source = some src → tagBucket s.tag = none →
      solStep pkg s st =
        (st.log ("Skip solution " ++ src.path.getD "" ++ " of tag " ++ pyStr s.tag), none)) ∧
    (∀ src b c, s.source = some src → tagBucket s.tag = some b →
      pkg.read? (src.path.getD "") = some c →
      solStep pkg s st =
        ((st.log ("extracting " ++ src.path.getD "" ++ " " ++
            joinPath ["submissions", b, pyBasename (src.path.getD "")])).writeFile
          ["submissions", b, pyBasename (src.path.getD "")] c, none)) := by
  refine ⟨?_, ?_, ?_⟩
  · intro hs; simp [solStep, hs]
  · intro src hs hb
    simp only [solStep, hs]
    unfold tagBucket at hb
    split_ifs at hb ⊢ <;> first
      | exact Option.noConfusion hb
      | rfl
  · intro src b c hs hb hc
    simp only [solStep, hs]
    unfold tagBucket at hb
    split_ifs at hb ⊢ <;> first
      | exact Option.noConfusion hb
      | (injection hb with hb; subst hb; simp [extractTo, hc])

/-- Witness for C8 (amended) at a `main`-tagged solution with a source. -/
theorem c8_solution_classification_witness :
    solStep [("sols/a.cpp", "CODE")]
        { source := some { path := some "sols/a.cpp", type := some "cpp" }, tag := some "main" }
        initSt =
      ((initSt.log "extracting sols/a.cpp submissions/accepted/a.cpp").writeFile
        ["submissions", "accepted", "a.cpp"] "CODE", none) := by
  have h := (c8_solution_classification [("sols/a.cpp", "CODE")]
    { source := some { path := some "sols/a.cpp", type := some "cpp" }, tag := some "main" }
    initSt).2.2 { path := some "sols/a.cpp", type := some "cpp" } "accepted" "CODE"
    rfl (by decide) (by decide)
  exact h.trans (by decide)

/-! ### Claim C5 -/

/-- Claim C5: a testset missing its input-path-pattern, answer-path-pattern
or test-count element is skipped entirely — `process_testset` logs the skip
and returns with the output tree and write trace untouched — and the run
continues with the remaining testsets. -/
theorem c5_malformed_testset_skipped (pkg : Package) (args : Args) (ts : Testset) (st : St)
    (h : ts.inputPathPattern = none ∨ ts.answerPathPattern = none ∨ ts.testCount = none) :
    ∃ st', processTestset pkg args ts st = (st', none) ∧
      st'.fs = st.fs ∧ st'.writes = st.writes ∧
      st'.logs = st.logs ++ ["Processing testset " ++ ts.name.getD "",
        "Skip processing testset " ++ ts.name.getD "" ++ ". Tags not found."] ∧
      ∀ rest, testsetsLoop pkg args (ts :: rest) st = testsetsLoop pkg args rest st' := by
  have key : processTestset pkg args ts st =
      ((st.log ("Processing testset " ++ ts.name.getD "")).log
        ("Skip processing testset " ++ ts.name.getD "" ++ ". Tags not found."), none) := by
    unfold processTestset
    rcases h with h | h | h
    · rw [h] <;> (cases ts.answerPathPattern <;> cases ts.testCount <;> rfl)
    · rw [h] <;> (cases ts.inputPathPattern <;> cases ts.testCount <;> rfl)
    · rw [h] <;> (cases ts.inputPathPattern <;> cases ts.answerPathPattern <;> rfl)
  refine ⟨_, key, rfl, rfl, by simp, ?_⟩
  intro rest
  simp [testsetsLoop, key, thenDo]

/-- Witness for C5: a testset lacking its `test-count` element. -/
theorem c5_malformed_testset_skipped_witness :
    ∃ st', processTestset []
        { testGenerationInfo := false }
        { name := some "bad", inputPathPattern := some (some "%d"),
          answerPathPattern := some (some "%d.a") } initSt = (st', none) ∧
      st'.fs = initSt.fs ∧ st'.writes = initSt.writes ∧
      st'.logs = initSt.logs ++ ["Processing testset bad",
        "Skip processing testset bad. Tags not found."] ∧
      ∀ rest, testsetsLoop [] { testGenerationInfo := false }
        ({ name := some "bad", inputPathPattern := some (some "%d"),
           answerPathPattern := some (some "%d.a") } :: rest) initSt =
        testsetsLoop [] { testGenerationInfo := false } rest st' :=
  c5_malformed_testset_skipped [] { testGenerationInfo := false }
    { name := some "bad", inputPathPattern := some (some "%d"),
      answerPathPattern := some (some "%d.a") } initSt (by simp)

/-! ### Claims C1, C4, C10: the test partition loop -/

/-- The destination directory claim C1 assigns to ordinal `i`: the shared
sample directory iff that test's sample flag equals `"true"`, else the
testset's secret directory. -/
def testDest (tests : List Test) (sampleDir secretDir : KPath) (i : Nat) : KPath :=
  match tests[i - 1]? with
  | some t => if t.sample = some "true" then sampleDir else secretDir
  | none => []

/-- The file writes claim C1 predicts over the ordinals `l`: for each
ordinal, `<i>.in` then `<i>.ans` in its destination directory, carrying the
contents of the pattern-resolved package members. -/
def partitionWrites (pkg : Package) (tests : List Test) (inPat ansPat : String)
    (sampleDir secretDir : KPath) (l : List Nat) : List (KPath × FsEntry) :=
  l.flatMap (fun i =>
    [(testDest tests sampleDir secretDir i ++ [toString i ++ ".in"],
        .file ((pkg.read? (pyFmtD inPat i)).getD "")),
     (testDest tests sampleDir secretDir i ++ [toString i ++ ".ans"],
        .file ((pkg.read? (pyFmtD ansPat i)).getD ""))])

/-- The generation-script lines accumulated over the ordinals `l`. -/
def partitionScripts (tests : List Test) (l : List Nat) : List String :=
  l.flatMap (fun i =>
    match tests[i - 1]? with
    | some t =>
      match t.cmd with
      | some c => [c ++ " > " ++ toString i ++ ".in"]
      | none => []
    | none => [])

/-- On ordinals whose test record exists, whose resolved members exist, and
whose generation commands are non-blank, the partition loop succeeds and
appends exactly the predicted writes and script lines. -/
theorem testLoop_ok (pkg : Package) (inPat ansPat : String) (tests : List Test)
    (sampleDir secretDir : KPath) (l : List Nat) :
    ∀ (st : St) (scripts : List String),
    (∀ i ∈ l, (tests[i - 1]?).isSome) →
    (∀ i ∈ l, (pkg.read? (pyFmtD inPat i)).isSome) →
    (∀ i ∈ l, (pkg.read? (pyFmtD ansPat i)).isSome) →
    (∀ i ∈ l, ∀ t, tests[i - 1]? = some t → ∀ c, t.cmd = some c → pySplitWs c ≠ []) →
    (testLoop pkg inPat ansPat tests sampleDir secretDir l st scripts).2.2 = none ∧
    (testLoop pkg inPat ansPat tests sampleDir secretDir l st scripts).2.1 =
      scripts ++ partitionScripts tests l ∧
    (testLoop pkg inPat ansPat tests sampleDir secretDir l st scripts).1.writes =
      st.writes ++ partitionWrites pkg tests inPat ansPat sampleDir secretDir l := by
  induction l with
  | nil =>
    intro st scripts _ _ _ _
    exact ⟨rfl, by simp [testLoop, partitionScripts], by simp [testLoop, partitionWrites]⟩
  | cons i rest ih =>
    intro st scripts hT hI hA hC
    obtain ⟨t, ht⟩ := Option.isSome_iff_exists.mp (hT i (by simp))
    obtain ⟨c1, hc1⟩ := Option.isSome_iff_exists.mp (hI i (by simp))
    obtain ⟨c2, hc2⟩ := Option.isSome_iff_exists.mp (hA i (by simp))
    have hT' := fun j hj => hT j (List.mem_cons_of_mem _ hj)
    have hI' := fun j hj => hI j (List.mem_cons_of_mem _ hj)
    have hA' := fun j hj => hA j (List.mem_cons_of_mem _ hj)
    have hC' := fun j hj => hC j (List.mem_cons_of_mem _ hj)
    cases hcmd : t.cmd with
    | none =>
      simp only [testLoop, ht, extractTo, hc1, hc2, hcmd]
      refine ⟨(ih _ _ hT' hI' hA' hC').1, ?_, ?_⟩
      · rw [(ih _ _ hT' hI' hA' hC').2.1]
        simp [partitionScripts, ht, hcmd]
      · rw [(ih _ _ hT' hI' hA' hC').2.2]
        simp [partitionWrites, testDest, ht, hc1, hc2]
    | some cmd =>
      have hsplit := hC i (by simp) t ht cmd hcmd
      cases hsp : pySplitWs cmd with
      | nil => exact absurd hsp hsplit
      | cons tok toks =>
        simp only [testLoop, ht, extractTo, hc1, hc2, hcmd, hsp, List.head?_cons]
        refine ⟨(ih _ _ hT' hI' hA' hC').1, ?_, ?_⟩
        · rw [(ih _ _ hT' hI' hA' hC').2.1]
          simp [partitionScripts, ht, hcmd, String.append_assoc]
        · rw [(ih _ _ hT' hI' hA' hC').2.2]
          simp [partitionWrites, testDest, ht, hc1, hc2, String.append_assoc]

/-- Claim C1: for a testset whose input-path-pattern, answer-path-pattern
and test-count elements are all present, whose test sequence covers the
declared count, whose pattern-resolved members all exist in the package and
whose present generation commands are non-blank, partitioning succeeds and
writes exactly `testcount` input files and `testcount` answer files, named
`<i>.in` / `<i>.ans` for `i = 1..testcount`, each pair placed in the shared
sample directory when that test's sample flag equals `"true"` and otherwise
in this testset's own secret subdirectory (see `partitionWrites` /
`testDest`) — plus, in test-generation-info mode only, the single
`_gen-test-script` marker. -/
theorem c1_partition_layout (pkg : Package) (args : Args) (ts : Testset) (st : St)
    (ipt apt tct : Option String)
    (hip : ts.inputPathPattern = some ipt) (hap : ts.answerPathPattern = some apt)
    (htc : ts.testCount = some tct)
    (tc : Int) (hparse : pyInt? (tct.getD "0") = some tc)
    (hlen : tc.toNat ≤ ts.tests.length)
    (hin : ∀ i ∈ List.range' 1 tc.toNat, (pkg.read? (pyFmtD (ipt.getD "") i)).isSome)
    (hans : ∀ i ∈ List.range' 1 tc.toNat, (pkg.read? (pyFmtD (apt.getD "") i)).isSome)
    (hcmd : ∀ i ∈ List.range' 1 tc.toNat, ∀ t, ts.tests[i - 1]? = some t →
      ∀ c, t.cmd = some c → pySplitWs c ≠ []) :
    (processTestset pkg args ts st).2 = none ∧
    (processTestset pkg args ts st).1.writes = st.writes ++
      partitionWrites pkg ts.tests (ipt.getD "") (apt.getD "")
        ["data", "sample"] ["data", "secret", ts.name.getD ""] (List.range' 1 tc.toNat) ++
      (if args.testGenerationInfo then
        [(["data", "secret", ts.name.getD "", "_gen-test-script"],
          FsEntry.file (DISCLAIMER ++ "\n" ++ String.intercalate "\n"
            (partitionScripts ts.tests (List.range' 1 tc.toNat))))]
       else []) := by
  have hT : ∀ i ∈ List.range' 1 tc.toNat, (ts.tests[i - 1]?).isSome := by
    intro i hi
    rw [List.mem_range'_1] at hi
    have hlt : i - 1 < ts.tests.length := by omega
    simp [List.getElem?_eq_getElem hlt]
  obtain ⟨g1, g2, g3⟩ := testLoop_ok pkg (ipt.getD "") (apt.getD "") ts.tests
    ["data", "sample"] ["data", "secret", ts.name.getD ""] (List.range' 1 tc.toNat)
    (st.log ("Processing testset " ++ ts.name.getD "")) [] hT hin hans hcmd
  rcases hr : testLoop pkg (ipt.getD "") (apt.getD "") ts.tests
    ["data", "sample"] ["data", "secret", ts.name.getD ""] (List.range' 1 tc.toNat)
    (st.log ("Processing testset " ++ ts.name.getD "")) [] with ⟨st1, scripts1, err1⟩
  rw [hr] at g1 g2 g3
  simp only at g1 g2 g3
  subst g1
  simp only [processTestset, hip, hap, htc, hparse, hr]
  cases htgi : args.testGenerationInfo with
  | false => simp [g3, htgi]
  | true => simp [g3, g2, htgi]

/-- Witness for C1: the spec's own scenario — testset `tests`, patterns
`%02d` / `%02d.a`, testcount 3, test 2 flagged sample. -/
theorem c1_partition_layout_witness :
    (processTestset [("01", "i1"), ("01.a", "a1"), ("02", "i2"), ("02.a", "a2"),
        ("03", "i3"), ("03.a", "a3")] {}
      { name := some "tests", inputPathPattern := some (some "%02d"),
        answerPathPattern := some (some "%02d.a"), testCount := some (some "3"),
        tests := [{ sample := none, cmd := none }, { sample := some "true", cmd := none },
          { sample := none, cmd := none }] } initSt).2 = none ∧
    (processTestset [("01", "i1"), ("01.a", "a1"), ("02", "i2"), ("02.a", "a2"),
        ("03", "i3"), ("03.a", "a3")] {}
      { name := some "tests", inputPathPattern := some (some "%02d"),
        answerPathPattern := some (some "%02d.a"), testCount := some (some "3"),
        tests := [{ sample := none, cmd := none }, { sample := some "true", cmd := none },
          { sample := none, cmd := none }] } initSt).1.writes = initSt.writes ++
      partitionWrites [("01", "i1"), ("01.a", "a1"), ("02", "i2"), ("02.a", "a2"),
          ("03", "i3"), ("03.a", "a3")]
        [{ sample := none, cmd := none }, { sample := some "true", cmd := none },
          { sample := none, cmd := none }]
        ((some "%02d").getD "") ((some "%02d.a").getD "")
        ["data", "sample"] ["data", "secret", (some "tests").getD ""]
        (List.range' 1 (3 : Int).toNat) ++
      (if ({} : Args).testGenerationInfo then
        [(["data", "secret", (some "tests").getD "", "_gen-test-script"],
          FsEntry.file (DISCLAIMER ++ "\n" ++ String.intercalate "\n"
            (partitionScripts
              [{ sample := none, cmd := none }, { sample := some "true", cmd := none },
                { sample := none, cmd := none }] (List.range' 1 (3 : Int).toNat))))]
       else []) := by
  refine c1_partition_layout _ {} _ initSt (some "%02d") (some "%02d.a") (some "3")
    rfl rfl rfl 3 (by decide) (by decide) (by decide) (by decide) ?_
  intro i hi t htt c hcc
  fin_cases hi <;> (simp at htt; subst htt; simp at hcc)

/-- If the loop succeeds on an ordinal segment, the loop on a longer list
continues from the reached state. -/
theorem testLoop_append_of_ok (pkg : Package) (inPat ansPat : String) (tests : List Test)
    (sampleDir secretDir : KPath) (l₁ l₂ : List Nat) :
    ∀ st scripts, (testLoop pkg inPat ansPat tests sampleDir secretDir l₁ st scripts).2.2 = none →
    testLoop pkg inPat ansPat tests sampleDir secretDir (l₁ ++ l₂) st scripts =
      testLoop pkg inPat ansPat tests sampleDir secretDir l₂
        (testLoop pkg inPat ansPat tests sampleDir secretDir l₁ st scripts).1
        (testLoop pkg inPat ansPat tests sampleDir secretDir l₁ st scripts).2.1 := by
  induction l₁ with
  | nil => intro st scripts _; rfl
  | cons i rest ih =>
    intro st scripts h
    cases ht : tests[i - 1]? with
    | none => simp [testLoop, ht] at h
    | some t =>
      cases hc1 : pkg.read? (pyFmtD inPat i) with
      | none => simp [testLoop, ht, extractTo, hc1] at h
      | some c1 =>
        cases hc2 : pkg.read? (pyFmtD ansPat i) with
        | none => simp [testLoop, ht, extractTo, hc1, hc2] at h
        | some c2 =>
          cases hcmd : t.cmd with
          | none =>
            simp only [List.cons_append, testLoop, ht, extractTo, hc1, hc2, hcmd] at h ⊢
            exact ih _ _ h
          | some cmd =>
            cases hsp : pySplitWs cmd with
            | nil => simp [testLoop, ht, extractTo, hc1, hc2, hcmd, hsp] at h
            | cons tok toks =>
              simp only [List.cons_append, testLoop, ht, extractTo, hc1, hc2, hcmd, hsp,
                List.head?_cons] at h ⊢
              exact ih _ _ h

/-- Claim C4: when the declared test count exceeds the authored test list
(and the ordinals within the authored list are themselves processable),
partitioning raises the index error at the first ordinal past the list —
`test_tags[len]` — and the error propagates out of the whole tests phase
for any run whose testset sequence starts with this testset. -/
theorem c4_overdeclared_testcount_aborts (pkg : Package) (args : Args) (ts : Testset) (st : St)
    (ipt apt tct : Option String)
    (hip : ts.inputPathPattern = some ipt) (hap : ts.answerPathPattern = some apt)
    (htc : ts.testCount = some tct)
    (tc : Int) (hparse : pyInt? (tct.getD "0") = some tc)
    (hgt : ts.tests.length < tc.toNat)
    (hin : ∀ i ∈ List.range' 1 ts.tests.length, (pkg.read? (pyFmtD (ipt.getD "") i)).isSome)
    (hans : ∀ i ∈ List.range' 1 ts.tests.length, (pkg.read? (pyFmtD (apt.getD "") i)).isSome)
    (hcmd : ∀ i ∈ List.range' 1 ts.tests.length, ∀ t, ts.tests[i - 1]? = some t →
      ∀ c, t.cmd = some c → pySplitWs c ≠ []) :
    (processTestset pkg args ts st).2 = some (.listIndexError ts.tests.length) ∧
    ∀ prob post, prob.testsets = ts :: post →
      (processTests pkg prob args st).2 = some (.listIndexError ts.tests.length) := by
  have key : ∀ st0 : St,
      (processTestset pkg args ts st0).2 = some (.listIndexError ts.tests.length) := by
    intro st0
    have hT : ∀ i ∈ List.range' 1 ts.tests.length, (ts.tests[i - 1]?).isSome := by
      intro i hi
      rw [List.mem_range'_1] at hi
      have hlt : i - 1 < ts.tests.length := by omega
      simp [List.getElem?_eq_getElem hlt]
    have h1 : tc.toNat = (tc.toNat - ts.tests.length) + ts.tests.length := by omega
    have h2 : tc.toNat - ts.tests.length = (tc.toNat - ts.tests.length - 1) + 1 := by omega
    have hrange : List.range' 1 tc.toNat =
        List.range' 1 ts.tests.length ++
          ((1 + ts.tests.length) :: List.range' (1 + ts.tests.length + 1)
            (tc.toNat - ts.tests.length - 1)) := by
      conv_lhs => rw [h1]
      rw [← List.range'_append_1 1 ts.tests.length (tc.toNat - ts.tests.length)]
      congr 1
      conv_lhs => rw [h2]
      rw [List.range'_succ]
    obtain ⟨g1, g2, g3⟩ := testLoop_ok pkg (ipt.getD "") (apt.getD "") ts.tests
      ["data", "sample"] ["data", "secret", ts.name.getD ""] (List.range' 1 ts.tests.length)
      (st0.log ("Processing testset " ++ ts.name.getD "")) [] hT hin hans hcmd
    have happ := testLoop_append_of_ok pkg (ipt.getD "") (apt.getD "") ts.tests
      ["data", "sample"] ["data", "secret", ts.name.getD ""] (List.range' 1 ts.tests.length)
      ((1 + ts.tests.length) :: List.range' (1 + ts.tests.length + 1)
        (tc.toNat - ts.tests.length - 1))
      (st0.log ("Processing testset " ++ ts.name.getD "")) [] g1
    have hnone : ts.tests[1 + ts.tests.length - 1]? = none :=
      List.getElem?_eq_none (by omega)
    simp only [processTestset, hip, hap, htc, hparse, hrange, happ, testLoop, hnone]
    norm_num
  refine ⟨key st, ?_⟩
  intro prob post hprob
  rcases hps : processTestset pkg args ts (st.log "Processing tests") with ⟨a, e⟩
  have he := key (st.log "Processing tests")
  rw [hps] at he
  simp only at he
  subst he
  simp [processTests, hprob, testsetsLoop, hps, thenDo]

/-- Witness for C4: testcount 2 but a single authored test. -/
theorem c4_overdeclared_testcount_aborts_witness :
    (processTestset [("1", "x"), ("1.a", "y")] {}
      { name := some "tests", inputPathPattern := some (some "%d"),
        answerPathPattern := some (some "%d.a"), testCount := some (some "2"),
        tests := [{ sample := none, cmd := none }] } initSt).2 =
      some (.listIndexError
        ([({ sample := none, cmd := none } : Test)]).length) ∧
    ∀ prob post,
      prob.testsets =
        { name := some "tests", inputPathPattern := some (some "%d"),
          answerPathPattern := some (some "%d.a"), testCount := some (some "2"),
          tests := [{ sample := none, cmd := none }] } :: post →
      (processTests [("1", "x"), ("1.a", "y")] prob {} initSt).2 =
        some (.listIndexError
          ([({ sample := none, cmd := none } : Test)]).length) := by
  refine c4_overdeclared_testcount_aborts _ {} _ initSt (some "%d") (some "%d.a") (some "2")
    rfl rfl rfl 2 (by decide) (by decide) (by decide) (by decide) ?_
  intro i hi t htt c hcc
  fin_cases hi <;> (simp at htt; subst htt; simp at hcc)

/-- Claim C10: for every test whose `cmd` attribute is present but blank
(empty or all whitespace) — at any ordinal `k` within the declared count,
the earlier ordinals being processable — partitioning raises the unhandled
`IndexError` from `cmd.split()[0]` instead of skipping or recording the
command, and the error propagates out of the whole tests phase. -/
theorem c10_blank_generation_command_aborts (pkg : Package) (args : Args) (ts : Testset)
    (st : St) (ipt apt tct : Option String)
    (hip : ts.inputPathPattern = some ipt) (hap : ts.answerPathPattern = some apt)
    (htc : ts.testCount = some tct)
    (tc : Int) (hparse : pyInt? (tct.getD "0") = some tc)
    (k : Nat) (hk1 : 1 ≤ k) (hk2 : k ≤ tc.toNat)
    (t : Test) (ht : ts.tests[k - 1]? = some t) (c : String) (hc : t.cmd = some c)
    (hws : pySplitWs c = [])
    (hin : ∀ i ∈ List.range' 1 (k - 1), (pkg.read? (pyFmtD (ipt.getD "") i)).isSome)
    (hans : ∀ i ∈ List.range' 1 (k - 1), (pkg.read? (pyFmtD (apt.getD "") i)).isSome)
    (hcmd : ∀ i ∈ List.range' 1 (k - 1), ∀ t', ts.tests[i - 1]? = some t' →
      ∀ c', t'.cmd = some c' → pySplitWs c' ≠ [])
    (c1 : String) (h1 : pkg.read? (pyFmtD (ipt.getD "") k) = some c1)
    (c2 : String) (h2 : pkg.read? (pyFmtD (apt.getD "") k) = some c2) :
    (processTestset pkg args ts st).2 = some .splitIndexError ∧
    ∀ prob post, prob.testsets = ts :: post →
      (processTests pkg prob args st).2 = some .splitIndexError := by
  have hklen : k - 1 < ts.tests.length := (List.getElem?_eq_some_iff.mp ht).1
  have key : ∀ st0 : St, (processTestset pkg args ts st0).2 = some .splitIndexError := by
    intro st0
    have hT : ∀ i ∈ List.range' 1 (k - 1), (ts.tests[i - 1]?).isSome := by
      intro i hi
      rw [List.mem_range'_1] at hi
      have hlt : i - 1 < ts.tests.length := by omega
      simp [List.getElem?_eq_getElem hlt]
    have hrange : List.range' 1 tc.toNat =
        List.range' 1 (k - 1) ++ (k :: List.range' (k + 1) (tc.toNat - k)) := by
      have e0 : tc.toNat = (tc.toNat - (k - 1)) + (k - 1) := by omega
      conv_lhs => rw [e0]
      rw [← List.range'_append_1 1 (k - 1) (tc.toNat - (k - 1))]
      congr 1
      have e1 : 1 + (k - 1) = k := by omega
      have e2 : tc.toNat - (k - 1) = (tc.toNat - k) + 1 := by omega
      rw [e1, e2, List.range'_succ]
    have g1 := (testLoop_ok pkg (ipt.getD "") (apt.getD "") ts.tests
      ["data", "sample"] ["data", "secret", ts.name.getD ""] (List.range' 1 (k - 1))
      (st0.log ("Processing testset " ++ ts.name.getD "")) [] hT hin hans hcmd).1
    have happ := testLoop_append_of_ok pkg (ipt.getD "") (apt.getD "") ts.tests
      ["data", "sample"] ["data", "secret", ts.name.getD ""] (List.range' 1 (k - 1))
      (k :: List.range' (k + 1) (tc.toNat - k))
      (st0.log ("Processing testset " ++ ts.name.getD "")) [] g1
    simp only [processTestset, hip, hap, htc, hparse, hrange, happ, testLoop, ht, extractTo,
      h1, h2, hc, hws, List.head?_nil]
  refine ⟨key st, ?_⟩
  intro prob post hprob
  rcases hps : processTestset pkg args ts (st.log "Processing tests") with ⟨a, e⟩
  have he := key (st.log "Processing tests")
  rw [hps] at he
  simp only at he
  subst he
  simp [processTests, hprob, testsetsLoop, hps, thenDo]

/-- Witness for C10: a two-test testset whose second test's `cmd` is one
space; the first test is processed, then the blank command aborts. -/
theorem c10_blank_generation_command_aborts_witness :
    (processTestset [("1", "x"), ("1.a", "y"), ("2", "x2"), ("2.a", "y2")] {}
      { name := some "tests", inputPathPattern := some (some "%d"),
        answerPathPattern := some (some "%d.a"), testCount := some (some "2"),
        tests := [{ sample := none, cmd := none },
          { sample := none, cmd := some " " }] } initSt).2 =
      some .splitIndexError ∧
    ∀ prob post,
      prob.testsets =
        { name := some "tests", inputPathPattern := some (some "%d"),
          answerPathPattern := some (some "%d.a"), testCount := some (some "2"),
          tests := [{ sample := none, cmd := none },
            { sample := none, cmd := some " " }] } :: post →
      (processTests [("1", "x"), ("1.a", "y"), ("2", "x2"), ("2.a", "y2")] prob {}
          initSt).2 =
        some .splitIndexError := by
  refine c10_blank_generation_command_aborts _ {} _ initSt (some "%d") (some "%d.a")
    (some "2") rfl rfl rfl 2 (by decide) 2 (by decide) (by decide)
    { sample := none, cmd := some " " } (by decide) " " rfl (by decide)
    (by decide) (by decide) ?_ "x2" (by decide) "y2" (by decide)
  intro i hi t htt c hcc
  fin_cases hi <;> (simp at htt; subst htt; simp at hcc)

/-! ### Claims C6, C7: statement assembly -/

/-- What one fragment contributes to the composite document: its rendering
when its file exists, nothing otherwise. -/
def fragPiece (dir : KPath) (fs : FS) (fr : String × (String → String)) : String :=
  match fs.readFile? (dir ++ [fr.1]) with
  | some t => fr.2 t
  | none => ""

/-- The concatenation of the fragments' contributions, in order. -/
def piecesOf (dir : KPath) (fs : FS) : List (String × (String → String)) → String
  | [] => ""
  | fr :: rest => fragPiece dir fs fr ++ piecesOf dir fs rest

theorem piecesOf_congr (dir : KPath) (fs fs' : FS)
    (frs : List (String × (String → String)))
    (h : ∀ fr ∈ frs, fs.readFile? (dir ++ [fr.1]) = fs'.readFile? (dir ++ [fr.1])) :
    piecesOf dir fs frs = piecesOf dir fs' frs := by
  induction frs with
  | nil => rfl
  | cons fr rest ih =>
    simp only [piecesOf, fragPiece, h fr (by simp)]
    rw [ih (fun f hf => h f (List.mem_cons_of_mem _ hf))]

theorem piecesOf_erase (dir : KPath) (fs : FS) (f : String)
    (frs : List (String × (String → String))) (h : ∀ fr ∈ frs, fr.1 ≠ f) :
    piecesOf dir (fs.erase (dir ++ [f])) frs = piecesOf dir fs frs := by
  refine piecesOf_congr dir _ fs frs (fun fr hfr => ?_)
  refine FS.readFile?_erase_ne fs (fun hp => h fr hfr ?_)
  have := List.append_cancel_left hp
  simpa using this

/-- The composite output is determined by the initial fragment contents,
provided the fragment names are distinct (each deletion cannot affect a
later fragment's read). -/
theorem buildComposite_snd (dir : KPath) (frs : List (String × (String → String))) :
    ∀ (st : St) (out : String), (frs.map Prod.fst).Nodup →
    (buildComposite dir frs st out).2 = out ++ piecesOf dir st.fs frs := by
  induction frs with
  | nil => intro st out _; simp [buildComposite, piecesOf]
  | cons fr rest ih =>
    intro st out hnd
    simp only [List.map_cons, List.nodup_cons] at hnd
    cases hread : st.fs.readFile? (dir ++ [fr.1]) with
    | none =>
      simp only [buildComposite, hread]
      rw [ih _ _ hnd.2]
      simp [piecesOf, fragPiece, hread]
    | some t =>
      simp only [buildComposite, hread]
      rw [ih _ _ hnd.2]
      simp only [St.eraseFile_fs]
      rw [piecesOf_erase dir st.fs fr.1 rest
        (fun f hf => by
          intro hEq
          exact hnd.1 (hEq ▸ List.mem_map_of_mem Prod.fst hf))]
      simp [piecesOf, fragPiece, hread, String.append_assoc]

/-- The composite build never creates entries: an absent path stays absent. -/
theorem buildComposite_read_none (dir : KPath) (frs : List (String × (String → String))) :
    ∀ (st : St) (out : String) (p : KPath), st.fs.read? p = none →
    (buildComposite dir frs st out).1.fs.read? p = none := by
  induction frs with
  | nil => intro st out p h; simpa [buildComposite] using h
  | cons fr rest ih =>
    intro st out p h
    cases hread : st.fs.readFile? (dir ++ [fr.1]) with
    | none => simpa only [buildComposite, hread] using ih _ _ _ h
    | some t =>
      simp only [buildComposite, hread]
      refine ih _ _ _ ?_
      simp only [St.eraseFile_fs]
      by_cases hp : p = dir ++ [fr.1]
      · subst hp; exact FS.read?_erase_self _ _
      · rw [FS.read?_erase_ne _ hp]; exact h

/-- After the composite build, every fragment path whose entry was a
regular file or absent reads as absent (fragment files are consumed). -/
theorem buildComposite_frag_none (dir : KPath) (frs : List (String × (String → String))) :
    ∀ (st : St) (out : String),
    (∀ fr ∈ frs, st.fs.read? (dir ++ [fr.1]) = none ∨
      ∃ c, st.fs.read? (dir ++ [fr.1]) = some (.file c)) →
    ∀ fr ∈ frs, (buildComposite dir frs st out).1.fs.read? (dir ++ [fr.1]) = none := by
  induction frs with
  | nil => intro st out _ fr hfr; exact absurd hfr (by simp)
  | cons fr0 rest ih =>
    intro st out hshape fr hfr
    have hstep : ∀ q : KPath,
        (st.eraseFile (dir ++ [fr0.1])).fs.read? q = none ∨
        (st.eraseFile (dir ++ [fr0.1])).fs.read? q = st.fs.read? q := by
      intro q
      by_cases hq : q = dir ++ [fr0.1]
      · subst hq; exact Or.inl (FS.read?_erase_self _ _)
      · exact Or.inr (FS.read?_erase_ne _ hq)
    rcases List.mem_cons.mp hfr with hfr0 | hfrR
    · subst hfr0
      cases hread : st.fs.readFile? (dir ++ [fr.1]) with
      | some t =>
        simp only [buildComposite, hread]
        refine buildComposite_read_none dir rest _ _ _ ?_
        simp only [St.eraseFile_fs]
        exact FS.read?_erase_self _ _
      | none =>
        have hnone : st.fs.read? (dir ++ [fr.1]) = none := by
          rcases hshape fr (by simp) with h | ⟨c, h⟩
          · exact h
          · simp [FS.readFile?, h] at hread
        simp only [buildComposite, hread]
        exact buildComposite_read_none dir rest _ _ _ hnone
    · cases hread : st.fs.readFile? (dir ++ [fr0.1]) with
      | some t =>
        simp only [buildComposite, hread]
        refine ih _ _ (fun f hf => ?_) fr hfrR
        rcases hstep (dir ++ [f.1]) with h | h
        · exact Or.inl h
        · rw [h]; exact hshape f (List.mem_cons_of_mem _ hf)
      | none =>
        simp only [buildComposite, hread]
        exact ih _ _ (fun f hf => hshape f (List.mem_cons_of_mem _ hf)) fr hfrR

/-- The member-copy loop succeeds when every member exists. -/
theorem copyLoop_ok (pkg : Package) (names : List String) :
    ∀ st : St, (∀ n ∈ names, (pkg.read? n).isSome) → (copyLoop pkg names st).2 = none := by
  induction names with
  | nil => intro st _; rfl
  | cons n rest ih =>
    intro st h
    obtain ⟨c, hc⟩ := Option.isSome_iff_exists.mp (h n (by simp))
    by_cases hsuf : pySuffix (pyBasename n) = ""
    · simpa only [copyLoop, hsuf, if_pos rfl] using
        ih st (fun m hm => h m (List.mem_cons_of_mem _ hm))
    · simp only [copyLoop, hsuf, if_neg hsuf, extractTo, hc, thenDo]
      exact ih _ (fun m hm => h m (List.mem_cons_of_mem _ hm))

/-- Two runs of the member-copy loop read equally at any path at which the
initial trees read equally (the copies themselves are identical). -/
theorem copyLoop_read_congr (pkg : Package) (names : List String) (p : KPath) :
    ∀ st st' : St, (∀ n ∈ names, (pkg.read? n).isSome) →
    st.fs.read? p = st'.fs.read? p →
    (copyLoop pkg names st).1.fs.read? p = (copyLoop pkg names st').1.fs.read? p := by
  induction names with
  | nil => intro st st' _ h; exact h
  | cons n rest ih =>
    intro st st' hmem h
    obtain ⟨c, hc⟩ := Option.isSome_iff_exists.mp (hmem n (by simp))
    have hmem' := fun m hm => hmem m (List.mem_cons_of_mem _ hm)
    by_cases hsuf : pySuffix (pyBasename n) = ""
    · simp only [copyLoop, hsuf, if_pos rfl]
      exact ih st st' hmem' h
    · simp only [copyLoop, hsuf, if_neg hsuf, extractTo, hc, thenDo]
      refine ih _ _ hmem' ?_
      simp only [St.writeFile_fs, St.log_fs]
      by_cases hp : p = ["problem_statement", pyBasename n]
      · subst hp; rw [FS.read?_write_self, FS.read?_write_self]
      · rw [FS.read?_write_ne _ _ hp, FS.read?_write_ne _ _ hp]; exact h

/-- The member-copy loop only adds regular files: any path reads either as
in the initial tree or as a regular file. -/
theorem copyLoop_read_shape (pkg : Package) (names : List String) (p : KPath) :
    ∀ st : St,
    (copyLoop pkg names st).1.fs.read? p = st.fs.read? p ∨
    ∃ c, (copyLoop pkg names st).1.fs.read? p = some (.file c) := by
  induction names with
  | nil => intro st; exact Or.inl rfl
  | cons n rest ih =>
    intro st
    by_cases hsuf : pySuffix (pyBasename n) = ""
    · simpa only [copyLoop, hsuf, if_pos rfl] using ih st
    · cases hc : pkg.read? n with
      | none => simp only [copyLoop, if_neg hsuf, extractTo, hc, thenDo]; exact Or.inl rfl
      | some c =>
        simp only [copyLoop, if_neg hsuf, extractTo, hc, thenDo]
        rcases ih (((st.log ("extracting " ++ n ++ " " ++
            joinPath ["problem_statement", pyBasename n]))).writeFile
            ["problem_statement", pyBasename n] c) with h | ⟨c', h⟩
        · rw [h]
          simp only [St.writeFile_fs, St.log_fs]
          by_cases hp : p = ["problem_statement", pyBasename n]
          · subst hp; rw [FS.read?_write_self]; exact Or.inr ⟨c, rfl⟩
          · rw [FS.read?_write_ne _ _ hp]; exact Or.inl rfl
        · exact Or.inr ⟨c', h⟩

/-- Claim C6: when at least one package member lies under the selected
language's statement-sections prefix, statement assembly writes the
composite document as the concatenation, in the fixed order name, legend,
input, output, notes, scoring, of each fragment's contribution — a
title macro around the trimmed text for `name`, the bare text for
`legend`, a heading plus the text for the other four — with an absent
fragment contributing nothing. -/
theorem c6_composite_statement_order (pkg : Package) (args : Args) (st : St)
    (hne : pkg.namelist.filter
      (fun n => pyStartsWith n ("statement-sections/" ++ args.lang.name)) ≠ []) :
    ∃ stc,
      copyLoop pkg (pkg.namelist.filter
          (fun n => pyStartsWith n ("statement-sections/" ++ args.lang.name)))
        (st.log "Processing statement") = (stc, none) ∧
      (processStatement pkg args st).2 = none ∧
      (processStatement pkg args st).1.fs.readFile?
          ["problem_statement", "problem." ++ args.lang.short_name ++ ".tex"] =
        some
          ((match stc.fs.readFile? ["problem_statement", "name.tex"] with
            | some t => "\\problemname\x7b" ++ pyStrip (pyStrip t) ++ "\x7d\n"
            | none => "") ++
           (match stc.fs.readFile? ["problem_statement", "legend.tex"] with
            | some t => t ++ "\n"
            | none => "") ++
           (match stc.fs.readFile? ["problem_statement", "input.tex"] with
            | some t => "\\section*\x7bInput\x7d\n" ++ t ++ "\n"
            | none => "") ++
           (match stc.fs.readFile? ["problem_statement", "output.tex"] with
            | some t => "\\section*\x7bOutput\x7d\n" ++ t ++ "\n"
            | none => "") ++
           (match stc.fs.readFile? ["problem_statement", "notes.tex"] with
            | some t => "\\section*\x7bSample Explanation\x7d\n" ++ t ++ "\n"
            | none => "") ++
           (match stc.fs.readFile? ["problem_statement", "scoring.tex"] with
            | some t => "\\section*\x7bScoring\x7d\n" ++ t ++ "\n"
            | none => "")) := by
  have hmem : ∀ n ∈ pkg.namelist.filter
      (fun n => pyStartsWith n ("statement-sections/" ++ args.lang.name)),
      (pkg.read? n).isSome :=
    fun n hn => Package.read?_isSome_of_mem_namelist (List.mem_of_mem_filter hn)
  have hok := copyLoop_ok pkg _ (st.log "Processing statement") hmem
  rcases hcl : copyLoop pkg (pkg.namelist.filter
      (fun n => pyStartsWith n ("statement-sections/" ++ args.lang.name)))
    (st.log "Processing statement") with ⟨stc, e⟩
  rw [hcl] at hok
  simp only at hok
  subst hok
  have hlen : ¬ (pkg.namelist.filter
      (fun n => pyStartsWith n ("statement-sections/" ++ args.lang.name))).length = 0 := by
    simpa [List.length_eq_zero] using hne
  refine ⟨stc, rfl, ?_, ?_⟩
  · simp only [processStatement, if_neg hlen, hcl, thenDo]
  · simp only [processStatement, if_neg hlen, hcl, thenDo, St.writeFile_fs,
      FS.readFile?_write_self]
    rw [buildComposite_snd ["problem_statement"] FRAGMENT_RENDERS stc "" (by decide)]
    simp [piecesOf, fragPiece, FRAGMENT_RENDERS, String.append_assoc]

/-- Witness for C6: legend is absent while input and output exist; the
composite carries the Input and Output headings and no stray piece for the
missing legend. -/
theorem c6_composite_statement_order_witness :
    ∃ stc,
      copyLoop [("statement-sections/english/input.tex", "I"),
          ("statement-sections/english/output.tex", "O")]
        ((Package.namelist [("statement-sections/english/input.tex", "I"),
            ("statement-sections/english/output.tex", "O")]).filter
          (fun n => pyStartsWith n ("statement-sections/" ++ ({} : Args).lang.name)))
        (initSt.log "Processing statement") = (stc, none) ∧
      (processStatement [("statement-sections/english/input.tex", "I"),
          ("statement-sections/english/output.tex", "O")] {} initSt).2 = none ∧
      (processStatement [("statement-sections/english/input.tex", "I"),
          ("statement-sections/english/output.tex", "O")] {} initSt).1.fs.readFile?
          ["problem_statement", "problem." ++ ({} : Args).lang.short_name ++ ".tex"] =
        some
          ((match stc.fs.readFile? ["problem_statement", "name.tex"] with
            | some t => "\\problemname\x7b" ++ pyStrip (pyStrip t) ++ "\x7d\n"
            | none => "") ++
           (match stc.fs.readFile? ["problem_statement", "legend.tex"] with
            | some t => t ++ "\n"
            | none => "") ++
           (match stc.fs.readFile? ["problem_statement", "input.tex"] with
            | some t => "\\section*\x7bInput\x7d\n" ++ t ++ "\n"
            | none => "") ++
           (match stc.fs.readFile? ["problem_statement", "output.tex"] with
            | some t => "\\section*\x7bOutput\x7d\n" ++ t ++ "\n"
            | none => "") ++
           (match stc.fs.readFile? ["problem_statement", "notes.tex"] with
            | some t => "\\section*\x7bSample Explanation\x7d\n" ++ t ++ "\n"
            | none => "") ++
           (match stc.fs.readFile? ["problem_statement", "scoring.tex"] with
            | some t => "\\section*\x7bScoring\x7d\n" ++ t ++ "\n"
            | none => "")) :=
  c6_composite_statement_order [("statement-sections/english/input.tex", "I"),
    ("statement-sections/english/output.tex", "O")] {} initSt (by decide)

/-- Claim C7 counterexample: running statement assembly twice is NOT always
byte-identical.  With a stale `name.tex` already in the statement directory
and a package whose statement sections contain only a legend, the first run
folds the stale fragment into the composite and deletes it; the second run
re-extracts only the package fragments, so its composite differs
(`\problemname` line present vs absent). -/
theorem c7_statement_rerun_differs :
    (processStatement [("statement-sections/english/legend.tex", "L")] {}
        (processStatement [("statement-sections/english/legend.tex", "L")] {}
          { initSt with
            fs := [(["problem_statement", "name.tex"], .file "Stale")] }).1).1.fs.readFile?
        ["problem_statement", "problem.en.tex"] ≠
      (processStatement [("statement-sections/english/legend.tex", "L")] {}
        { initSt with
          fs := [(["problem_statement", "name.tex"], .file "Stale")] }).1.fs.readFile?
        ["problem_statement", "problem.en.tex"] := by decide

/-- Claim C7 (amended): running statement assembly twice on the same source
archive is idempotent — second composite byte-identical to the first —
provided the statement directory does not already hold a stale file at one
of the six fragment names (e.g. a fresh output tree): fragments are deleted
after folding and re-extracted from the immutable package on each run. -/
theorem c7_statement_assembly_idempotent (pkg : Package) (args : Args) (st : St)
    (hlang : args.lang = ENGLISH_LANG ∨ args.lang = VIETNAMESE_LANG)
    (hclean : ∀ fr ∈ FRAGMENT_RENDERS,
      st.fs.read? (["problem_statement"] ++ [fr.1]) = none) :
    (processStatement pkg args st).2 = none ∧
    (processStatement pkg args (processStatement pkg args st).1).2 = none ∧
    (processStatement pkg args (processStatement pkg args st).1).1.fs.readFile?
        ["problem_statement", "problem." ++ args.lang.short_name ++ ".tex"] =
      (processStatement pkg args st).1.fs.readFile?
        ["problem_statement", "problem." ++ args.lang.short_name ++ ".tex"] := by
  have hfr_ne : ∀ fr ∈ FRAGMENT_RENDERS,
      (["problem_statement"] ++ [fr.1] : KPath) ≠
        ["problem_statement", "problem." ++ args.lang.short_name ++ ".tex"] := by
    have hshort : args.lang.short_name = "en" ∨ args.lang.short_name = "vn" := by
      rcases hlang with h | h <;> rw [h] <;> simp [ENGLISH_LANG, VIETNAMESE_LANG]
    rcases hshort with h | h <;> rw [h] <;> decide
  by_cases hL : (pkg.namelist.filter
      (fun n => pyStartsWith n ("statement-sections/" ++ args.lang.name))).length = 0
  · have h1 : processStatement pkg args st = (st.log "Processing statement", none) := by
      simp only [processStatement, if_pos hL]
    have h2 : processStatement pkg args (st.log "Processing statement") =
        ((st.log "Processing statement").log "Processing statement", none) := by
      simp only [processStatement, if_pos hL]
    rw [h1, h2]
    exact ⟨rfl, rfl, rfl⟩
  · have hmem : ∀ n ∈ pkg.namelist.filter
        (fun n => pyStartsWith n ("statement-sections/" ++ args.lang.name)),
        (pkg.read? n).isSome :=
      fun n hn => Package.read?_isSome_of_mem_namelist (List.mem_of_mem_filter hn)
    have hrun : ∀ st0 : St, processStatement pkg args st0 =
        ((buildComposite ["problem_statement"] FRAGMENT_RENDERS
            (copyLoop pkg (pkg.namelist.filter
              (fun n => pyStartsWith n ("statement-sections/" ++ args.lang.name)))
              (st0.log "Processing statement")).1 "").1.writeFile
          ["problem_statement", "problem." ++ args.lang.short_name ++ ".tex"]
          (buildComposite ["problem_statement"] FRAGMENT_RENDERS
            (copyLoop pkg (pkg.namelist.filter
              (fun n => pyStartsWith n ("statement-sections/" ++ args.lang.name)))
              (st0.log "Processing statement")).1 "").2, none) := by
      intro st0
      have hok := copyLoop_ok pkg _ (st0.log "Processing statement") hmem
      rcases hcl : copyLoop pkg (pkg.namelist.filter
          (fun n => pyStartsWith n ("statement-sections/" ++ args.lang.name)))
        (st0.log "Processing statement") with ⟨stc, e⟩
      rw [hcl] at hok
      simp only at hok
      subst hok
      simp only [processStatement, if_neg hL, hcl, thenDo]
    -- the state reached by the first run, and the fragment-path facts
    have hshape1 : ∀ fr ∈ FRAGMENT_RENDERS,
        (copyLoop pkg (pkg.namelist.filter
            (fun n => pyStartsWith n ("statement-sections/" ++ args.lang.name)))
          (st.log "Processing statement")).1.fs.read? (["problem_statement"] ++ [fr.1]) =
            none ∨
        ∃ c, (copyLoop pkg (pkg.namelist.filter
            (fun n => pyStartsWith n ("statement-sections/" ++ args.lang.name)))
          (st.log "Processing statement")).1.fs.read? (["problem_statement"] ++ [fr.1]) =
            some (.file c) := by
      intro fr hfr
      rcases copyLoop_read_shape pkg _ (["problem_statement"] ++ [fr.1])
        (st.log "Processing statement") with h | h
      · left; rw [h]; exact hclean fr hfr
      · right; exact h
    have hst1 : ∀ fr ∈ FRAGMENT_RENDERS,
        (processStatement pkg args st).1.fs.read? (["problem_statement"] ++ [fr.1]) = none := by
      intro fr hfr
      rw [hrun st]
      simp only [St.writeFile_fs]
      rw [FS.read?_write_ne _ _ (hfr_ne fr hfr)]
      exact buildComposite_frag_none ["problem_statement"] FRAGMENT_RENDERS _ "" hshape1 fr hfr
    have hbase : ∀ fr ∈ FRAGMENT_RENDERS,
        ((processStatement pkg args st).1.log "Processing statement").fs.read?
            (["problem_statement"] ++ [fr.1]) =
          (st.log "Processing statement").fs.read? (["problem_statement"] ++ [fr.1]) := by
      intro fr hfr
      simp only [St.log_fs]
      rw [hst1 fr hfr, hclean fr hfr]
    have hfragEq : ∀ fr ∈ FRAGMENT_RENDERS,
        (copyLoop pkg (pkg.namelist.filter
            (fun n => pyStartsWith n ("statement-sections/" ++ args.lang.name)))
          (((processStatement pkg args st).1).log "Processing statement")).1.fs.readFile?
            (["problem_statement"] ++ [fr.1]) =
        (copyLoop pkg (pkg.namelist.filter
            (fun n => pyStartsWith n ("statement-sections/" ++ args.lang.name)))
          (st.log "Processing statement")).1.fs.readFile?
            (["problem_statement"] ++ [fr.1]) := by
      intro fr hfr
      have h := copyLoop_read_congr pkg _ (["problem_statement"] ++ [fr.1])
        (((processStatement pkg args st).1).log "Processing statement")
        (st.log "Processing statement") hmem (hbase fr hfr)
      simp only [FS.readFile?, h]
    refine ⟨by rw [hrun st], by rw [hrun ((processStatement pkg args st).1)], ?_⟩
    conv_lhs => rw [hrun ((processStatement pkg args st).1)]
    conv_rhs => rw [hrun st]
    simp only [St.writeFile_fs, FS.readFile?_write_self]
    rw [buildComposite_snd _ _ _ _ (by decide), buildComposite_snd _ _ _ _ (by decide)]
    rw [piecesOf_congr ["problem_statement"] _ _ FRAGMENT_RENDERS hfragEq]

/-- Witness for C7 (amended): a fresh output tree and a one-legend package. -/
theorem c7_statement_assembly_idempotent_witness :
    (processStatement [("statement-sections/english/legend.tex", "L")] {} initSt).2 = none ∧
    (processStatement [("statement-sections/english/legend.tex", "L")] {}
      (processStatement [("statement-sections/english/legend.tex", "L")] {} initSt).1).2 =
      none ∧
    (processStatement [("statement-sections/english/legend.tex", "L")] {}
        (processStatement [("statement-sections/english/legend.tex", "L")] {}
          initSt).1).1.fs.readFile?
        ["problem_statement", "problem." ++ ({} : Args).lang.short_name ++ ".tex"] =
      (processStatement [("statement-sections/english/legend.tex", "L")] {}
        initSt).1.fs.readFile?
        ["problem_statement", "problem." ++ ({} : Args).lang.short_name ++ ".tex"] :=
  c7_statement_assembly_idempotent [("statement-sections/english/legend.tex", "L")] {}
    initSt (Or.inl rfl) (by decide)

end P2K
